import Mathlib

/-!
Verification of the `im::smart_mutex` value wrapper
(src/include/smart_mutex.hpp).

A `smart_mutex<T, Mutex>` owns a payload of type `T` and a `mutable Mutex`.
Every observation or mutation of the payload happens inside the member
functions of the wrapper, each of which takes the mutex (or, for the
operations touching two wrappers, both mutexes via `std::scoped_lock`)
before touching any payload.

Shallow embedding used below:

* a wrapper instance is a pair of a lock identity (the address of its
  embedded mutex; distinct live instances have distinct identities) and the
  current payload value;
* every operation of the header is a Lean function returning its C++ return
  value, the post-states of the instances it touched, and the list of lock
  and payload events the operation performs, in program order;
* `std::scoped_lock lock(m1, m2)` is embedded as a single atomic
  all-or-nothing acquisition event `Event.acqBoth` (the guarantee of
  `std::lock`).  A non-recursive `std::mutex` cannot be re-acquired by the
  thread that already holds it, so an acquisition whose two arguments name
  the same mutex never completes: such an operation is embedded as `none`;
* a well-lockedness checker replays an event trace against the set of
  locks held by the executing thread and rejects any payload access made
  without the corresponding lock being held, any re-acquisition, and any
  unbalanced acquire/release.
-/

namespace SmartMutex

/-- Lock identity: the address of the `Mutex` member of one wrapper
instance.  Distinct live instances have distinct identities. -/
abbrev LockId := Nat

/-- Events a wrapper operation performs, in program order.  `acq`/`rel`
come from `std::lock_guard` (single mutex), `acqBoth`/`relBoth` from
`std::scoped_lock` over two mutexes (atomic all-or-nothing acquisition),
`readV m` / `writeV m` are a read / write of the payload guarded by the
mutex `m`. -/
inductive Event where
  | acq : LockId → Event
  | rel : LockId → Event
  | acqBoth : LockId → LockId → Event
  | relBoth : LockId → LockId → Event
  | readV : LockId → Event
  | writeV : LockId → Event
deriving DecidableEq, Repr

/-- One wrapper instance: lock identity plus current payload. -/
structure SM (α : Type) where
  lid : LockId
  value : α
deriving DecidableEq, Repr

/-- Effect of one event on the set of locks held by the executing thread.
Re-acquiring a held non-recursive mutex, passing the same mutex twice to
`std::scoped_lock`, releasing a mutex that is not held, and touching a
payload whose mutex is not held, are all rejected (`none`). -/
def lockStep (held : List LockId) : Event → Option (List LockId)
  | .acq m => if m ∈ held then none else some (m :: held)
  | .rel m => if m ∈ held then some (held.erase m) else none
  | .acqBoth m n =>
      if m = n ∨ m ∈ held ∨ n ∈ held then none else some (m :: n :: held)
  | .relBoth m n =>
      if m ∈ held ∧ n ∈ held then some ((held.erase m).erase n) else none
  | .readV m => if m ∈ held then some held else none
  | .writeV m => if m ∈ held then some held else none

/-- Replay a trace against the held-lock set. -/
def lockRun (held : List LockId) : List Event → Option (List LockId)
  | [] => some held
  | e :: es =>
      match lockStep held e with
      | none => none
      | some h => lockRun h es

/-- A trace is well locked when, starting with no lock held, every payload
access happens under its lock and every acquired lock is released, ending
with no lock held. -/
def WellLocked (tr : List Event) : Prop := lockRun [] tr = some []

instance (tr : List Event) : Decidable (WellLocked tr) := by
  unfold WellLocked; infer_instance

/-- Number of single-mutex release events in a trace. -/
def relCount (tr : List Event) : Nat :=
  tr.countP fun e => match e with | .rel _ => true | _ => false

/-- Number of single-mutex acquire events in a trace. -/
def acqCount (tr : List Event) : Nat :=
  tr.countP fun e => match e with | .acq _ => true | _ => false

/-- Number of atomic dual acquisitions in a trace. -/
def acqBothCount (tr : List Event) : Nat :=
  tr.countP fun e => match e with | .acqBoth _ _ => true | _ => false

/-- Number of payload writes in a trace. -/
def writeCount (tr : List Event) : Nat :=
  tr.countP fun e => match e with | .writeV _ => true | _ => false

/-- Embedding of `std::scoped_lock lock(m, n)` executed by a thread that
holds no lock: the atomic acquisition of both mutexes.  It never completes
when both arguments name the same non-recursive mutex. -/
def scopedLock2 (m n : LockId) : Option (List LockId) :=
  lockStep [] (.acqBoth m n)

end SmartMutex

namespace SmartMutex

variable {α β : Type}

/-! Construction (no other thread can observe the object yet). -/

/-- Variadic constructor `smart_mutex(Args ...args) : value(std::forward
<Args>(args)...)`: the payload is built in place from the forwarded
arguments; the body is empty, no lock is touched.  `ctor` stands for the
constructor of `T` selected by overload resolution on the arguments. -/
def mkForward (l : LockId) (ctor : β → α) (args : β) : SM α × List Event :=
  (⟨l, ctor args⟩, [])

/-- Constructor `smart_mutex(const T &other) : value(other)`: copies a raw
value in, no lock is touched. -/
def mkOfValue (l : LockId) (v : α) : SM α × List Event :=
  (⟨l, v⟩, [])

/-! Dual-instance operations.  Each runs
`std::scoped_lock lock(mutex, other.mutex)` and then touches the payloads
while both locks are held; the `scoped_lock` destructor releases both.
The embedding returns `none` exactly when the atomic acquisition cannot
complete, i.e. when both sides name the same mutex. -/

/-- Trace of a dual-lock copy transfer: atomically take both mutexes, read
the source payload, write the destination payload, release both. -/
def dualCopyTrace (d s : LockId) : List Event :=
  [.acqBoth d s, .readV s, .writeV d, .relBoth d s]

/-- Trace of a dual-lock payload comparison: atomically take both mutexes,
read both payloads, release both. -/
def dualCmpTrace (a b : LockId) : List Event :=
  [.acqBoth a b, .readV a, .readV b, .relBoth a b]

/-- Trace of the dual-lock swap: atomically take both mutexes, read and
write both payloads (`std::swap`), release both. -/
def dualSwapTrace (a b : LockId) : List Event :=
  [.acqBoth a b, .readV a, .readV b, .writeV a, .writeV b, .relBoth a b]

/-- Copy constructor `smart_mutex(smart_mutex &other)`: scoped-locks the
fresh mutex and the mutex of `other`, then `value = other.value`.  `newL`
is the identity of the freshly constructed mutex. -/
def copyCtor (newL : LockId) (other : SM α) :
    Option (SM α × SM α × List Event) :=
  (scopedLock2 newL other.lid).map fun _ =>
    (⟨newL, other.value⟩, other, dualCopyTrace newL other.lid)

/-- Move constructor `smart_mutex(smart_mutex &&other)`: scoped-locks both,
then `value = std::move(other.value)`.  `mv v` stands for the valid but
unspecified state `std::move` leaves a payload `v` in. -/
def moveCtor (mv : α → α) (newL : LockId) (other : SM α) :
    Option (SM α × SM α × List Event) :=
  (scopedLock2 newL other.lid).map fun _ =>
    (⟨newL, other.value⟩, ⟨other.lid, mv other.value⟩,
     dualCopyTrace newL other.lid)

/-- Copy assignment `operator=(const smart_mutex &other)`: scoped-locks
both mutexes, then `value = other.value`. -/
def assignCopy (dst src : SM α) : Option (SM α × SM α × List Event) :=
  (scopedLock2 dst.lid src.lid).map fun _ =>
    (⟨dst.lid, src.value⟩, src, dualCopyTrace dst.lid src.lid)

/-- Move assignment `operator=(smart_mutex &&other)`: scoped-locks both
mutexes, then `value = std::move(other.value)`. -/
def assignMove (mv : α → α) (dst src : SM α) :
    Option (SM α × SM α × List Event) :=
  (scopedLock2 dst.lid src.lid).map fun _ =>
    (⟨dst.lid, src.value⟩, ⟨src.lid, mv src.value⟩,
     dualCopyTrace dst.lid src.lid)

/-- Comparison `operator==(const smart_mutex &other)`: scoped-locks both
mutexes, then `value == other.value`.  Both operands are left untouched. -/
def eqSM [DecidableEq α] (a b : SM α) :
    Option (Bool × SM α × SM α × List Event) :=
  (scopedLock2 a.lid b.lid).map fun _ =>
    (decide (a.value = b.value), a, b, dualCmpTrace a.lid b.lid)

/-- Comparison `operator!=(const smart_mutex &other)`: scoped-locks both
mutexes, then `value != other.value`. -/
def neqSM [DecidableEq α] (a b : SM α) :
    Option (Bool × SM α × SM α × List Event) :=
  (scopedLock2 a.lid b.lid).map fun _ =>
    (decide (a.value ≠ b.value), a, b, dualCmpTrace a.lid b.lid)

/-- Friend `operator==(const smart_mutex &lhs, const T &rhs)`: lock-guards
only the mutex of `lhs`, compares, releases. -/
def eqRaw [DecidableEq α] (a : SM α) (v : α) :
    Bool × SM α × α × List Event :=
  (decide (a.value = v), a, v, [.acq a.lid, .readV a.lid, .rel a.lid])

/-- Friend `operator!=(const smart_mutex &lhs, const T &rhs)`: lock-guards
only the mutex of `lhs`, compares, releases. -/
def neqRaw [DecidableEq α] (a : SM α) (v : α) :
    Bool × SM α × α × List Event :=
  (decide (a.value ≠ v), a, v, [.acq a.lid, .readV a.lid, .rel a.lid])

/-- Conversion `operator T() const`: lock-guards the mutex, returns the
payload by copy, releases.  The stored payload is unmodified. -/
def toValue (a : SM α) : α × SM α × List Event :=
  (a.value, a, [.acq a.lid, .readV a.lid, .rel a.lid])

/-- Friend `swap(smart_mutex &lhs, smart_mutex &rhs) noexcept`:
scoped-locks both mutexes, then `std::swap(lhs.value, rhs.value)`. -/
def swapSM (a b : SM α) : Option (SM α × SM α × List Event) :=
  (scopedLock2 a.lid b.lid).map fun _ =>
    (⟨a.lid, b.value⟩, ⟨b.lid, a.value⟩, dualSwapTrace a.lid b.lid)

/-- Friend `swap(smart_mutex &lhs, T &rhs) noexcept`: lock-guards only the
mutex of `lhs`, then `std::swap(lhs.value, rhs)` exchanges the payload with
the external raw value. -/
def swapWithRaw (a : SM α) (v : α) : SM α × α × List Event :=
  (⟨a.lid, v⟩, a.value,
   [.acq a.lid, .readV a.lid, .writeV a.lid, .rel a.lid])

/-- Friend `swap(T &lhs, smart_mutex &rhs) noexcept`: lock-guards only the
mutex of `rhs`, then `std::swap(lhs, rhs.value)`. -/
def swapRawWith (v : α) (a : SM α) : α × SM α × List Event :=
  (a.value, ⟨a.lid, v⟩,
   [.acq a.lid, .readV a.lid, .writeV a.lid, .rel a.lid])

/-! Accessor (`struct access`).  Its constructor
`access(const smart_mutex &smart) : ref(smart), lg(ref.mutex)` acquires the
mutex through the `std::lock_guard` member `lg`; the implicitly defined
destructor destroys `lg`, which releases the mutex exactly once, and the
destructor runs on every exit path of the enclosing scope, including early
return and stack unwinding after a thrown failure. -/

/-- One use of `operator->` on an accessor: a read or a write of the
guarded payload, performed while the accessor (hence the lock) lives. -/
inductive PayloadOp where
  | readOp : PayloadOp
  | writeOp : PayloadOp
deriving DecidableEq, Repr

/-- Event emitted by one payload operation through an accessor on the
instance whose mutex is `m`. -/
def payloadEvent (m : LockId) : PayloadOp → Event
  | .readOp => .readV m
  | .writeOp => .writeV m

/-- Trace of one accessor session on instance `a`: the constructor
acquires, the body performs payload operations through `operator->`, and
the destructor releases.  `k` models the exit point: only the first `k`
operations of the intended body run (an early return or a thrown failure
after `k` steps); the `std::lock_guard` destructor still releases the
mutex on that path. -/
def accessorTrace (a : SM α) (ops : List PayloadOp) (k : Nat) :
    List Event :=
  .acq a.lid :: ((ops.take k).map (payloadEvent a.lid) ++ [.rel a.lid])

/-- Payload effect of writing through an accessor:
`operator->` returns `const_cast<U *>(&ref.value)`, a pointer through
which `f` is applied to the payload. -/
def accessWrite (a : SM α) (f : α → α) : SM α :=
  ⟨a.lid, f a.value⟩

/-! Constness.  The accessor template is a public member; its only
constructor takes `const smart_mutex &`, so it accepts a const-qualified
wrapper, and `operator->` casts constness away before handing out the
payload pointer. -/

/-- A const-qualified `smart_mutex` object as seen by the caller. -/
structure ConstSM (α : Type) where
  toSM : SM α
deriving DecidableEq, Repr

/-- Explicit construction of `access<T>` (`write_access`) from a
const-qualified wrapper, followed by a mutation `f` applied through the
`const_cast` pointer of `operator->`, followed by destruction.  The
constructor parameter type `const smart_mutex &` accepts the const object,
so this function is total on `ConstSM`. -/
def mutateConstThroughAccess (c : ConstSM α) (f : α → α) :
    ConstSM α × List Event :=
  (⟨⟨c.toSM.lid, f c.toSM.value⟩⟩,
   [.acq c.toSM.lid, .writeV c.toSM.lid, .rel c.toSM.lid])

end SmartMutex

namespace SmartMutex

/-! Two-thread model for the concurrent-assignment duel.  Thread 0 runs
`A = B` and thread 1 runs `B = A` on the same pair of distinct instances.
Each `operator=` body is three atomic phases:
phase 0, `std::scoped_lock lock(mutex, other.mutex)` — enabled only when
both mutexes are free, and then takes both at once (the all-or-nothing
guarantee of `std::lock`);
phase 1, `value = other.value` under both locks;
phase 2, the `scoped_lock` destructor releases both mutexes.
`pc = 3` means the thread returned. -/

/-- Global state of the duel: the phase counter of each thread and the
holder (if any) of the mutex of instance A and of instance B. -/
structure DuelState where
  pc0 : Nat
  pc1 : Nat
  lockA : Option (Fin 2)
  lockB : Option (Fin 2)
deriving DecidableEq, Repr

/-- Initial state: both threads before the scoped-lock, both mutexes
free. -/
def duelInit : DuelState := ⟨0, 0, none, none⟩

/-- Phase counter of thread `i`. -/
def DuelState.pc (s : DuelState) (i : Fin 2) : Nat :=
  if i = 0 then s.pc0 else s.pc1

/-- Advance the phase counter of thread `i`. -/
def DuelState.withPc (s : DuelState) (i : Fin 2) (p : Nat) : DuelState :=
  if i = 0 then { s with pc0 := p } else { s with pc1 := p }

/-- One step of thread `i`, when enabled.  The scoped-lock phase is a
single atomic acquisition of both mutexes, enabled exactly when both are
free; it never takes one mutex while waiting for the other. -/
def duelStep (i : Fin 2) (s : DuelState) : Option DuelState :=
  if s.pc i = 0 then
    if s.lockA = none ∧ s.lockB = none then
      some ({ s.withPc i 1 with lockA := some i, lockB := some i })
    else none
  else if s.pc i = 1 then
    some (s.withPc i 2)
  else if s.pc i = 2 then
    some ({ s.withPc i 3 with lockA := none, lockB := none })
  else none

/-- All states reachable from `s` in one step of either thread. -/
def duelSucc (s : DuelState) : List DuelState :=
  (duelStep 0 s).toList ++ (duelStep 1 s).toList

/-- Both assignments returned. -/
def DuelDone (s : DuelState) : Prop := s.pc0 = 3 ∧ s.pc1 = 3

instance (s : DuelState) : Decidable (DuelDone s) := by
  unfold DuelDone; infer_instance

/-- Remaining work: strictly decreases along every step. -/
def duelRank (s : DuelState) : Nat := (3 - s.pc0) + (3 - s.pc1)

/-- States reachable from the initial state. -/
inductive DuelReach : DuelState → Prop where
  | init : DuelReach duelInit
  | next : ∀ {s s'}, DuelReach s → s' ∈ duelSucc s → DuelReach s'

/-- Breadth-first closure of the successor relation, with fuel. -/
def duelClosure : Nat → List DuelState → List DuelState
  | 0, acc => acc
  | n + 1, acc =>
      let fresh :=
        ((acc.flatMap duelSucc).filter fun s => decide (s ∉ acc)).dedup
      if fresh = [] then acc else duelClosure n (acc ++ fresh)

/-- The reachable state space of the duel. -/
def duelReachList : List DuelState := duelClosure 16 [duelInit]

end SmartMutex

namespace SmartMutex

/-! Helper lemmas about the lock machine. -/

/-- Running a trace over an append splits into two runs. -/
theorem lockRun_append (h : List LockId) (l1 l2 : List Event) :
    lockRun h (l1 ++ l2) =
      match lockRun h l1 with
      | none => none
      | some h2 => lockRun h2 l2 := by
  induction l1 generalizing h with
  | nil => simp [lockRun]
  | cons e es ih =>
      simp only [List.cons_append, lockRun]
      cases lockStep h e with
      | none => rfl
      | some h2 => exact ih h2

/-- Events that leave the held set fixed can be run in any number. -/
theorem lockRun_inv (h : List LockId) (mid : List Event)
    (hmid : ∀ e ∈ mid, lockStep h e = some h) :
    lockRun h mid = some h := by
  induction mid with
  | nil => rfl
  | cons e es ih =>
      rw [lockRun, hmid e (List.mem_cons_self e es)]
      exact ih fun e2 he2 => hmid e2 (List.mem_cons_of_mem e he2)

/-- Payload accesses under a single held lock keep the held set fixed. -/
theorem lockRun_payload (m : LockId) (ops : List PayloadOp) :
    lockRun [m] (ops.map (payloadEvent m)) = some [m] := by
  refine lockRun_inv [m] _ fun e he => ?_
  rcases List.mem_map.1 he with ⟨op, _, rfl⟩
  cases op <;> simp [payloadEvent, lockStep]

/-- A single-mutex critical section bracketing payload accesses is well
locked. -/
theorem wellLocked_singleLock (m : LockId) (ops : List PayloadOp) :
    WellLocked (Event.acq m :: (ops.map (payloadEvent m) ++ [Event.rel m])) := by
  unfold WellLocked
  have h1 : lockStep [] (Event.acq m) = some [m] := by simp [lockStep]
  rw [lockRun, h1]
  show lockRun [m] (ops.map (payloadEvent m) ++ [Event.rel m]) = some []
  rw [lockRun_append, lockRun_payload m ops]
  show lockRun [m] [Event.rel m] = some []
  simp [lockRun, lockStep]

/-- A dual-mutex critical section bracketing payload accesses to the two
guarded payloads is well locked, provided the two mutexes are distinct. -/
theorem wellLocked_dualLock (d s : LockId) (h : d ≠ s) (mid : List Event)
    (hmid : ∀ e ∈ mid, lockStep [d, s] e = some [d, s]) :
    WellLocked (Event.acqBoth d s :: (mid ++ [Event.relBoth d s])) := by
  unfold WellLocked
  have h1 : lockStep [] (Event.acqBoth d s) = some [d, s] := by
    simp [lockStep, h]
  rw [lockRun, h1]
  show lockRun [d, s] (mid ++ [Event.relBoth d s]) = some []
  rw [lockRun_append, lockRun_inv [d, s] mid hmid]
  show lockRun [d, s] [Event.relBoth d s] = some []
  have hz : (([d, s].erase d).erase s) = ([] : List LockId) := by
    simp [List.erase_cons_head]
  simp [lockRun, lockStep, hz]

/-- Dual copy-transfer traces are well locked. -/
theorem dualCopyTrace_wellLocked {d s : LockId} (h : d ≠ s) :
    WellLocked (dualCopyTrace d s) := by
  have hmid : ∀ e ∈ [Event.readV s, Event.writeV d],
      lockStep [d, s] e = some [d, s] := by
    intro e he
    rcases List.mem_cons.1 he with rfl | he2
    · simp [lockStep]
    · rcases List.mem_cons.1 he2 with rfl | he3
      · simp [lockStep]
      · cases he3
  exact wellLocked_dualLock d s h [Event.readV s, Event.writeV d] hmid

/-- Dual comparison traces are well locked. -/
theorem dualCmpTrace_wellLocked {a b : LockId} (h : a ≠ b) :
    WellLocked (dualCmpTrace a b) := by
  have hmid : ∀ e ∈ [Event.readV a, Event.readV b],
      lockStep [a, b] e = some [a, b] := by
    intro e he
    rcases List.mem_cons.1 he with rfl | he2
    · simp [lockStep]
    · rcases List.mem_cons.1 he2 with rfl | he3
      · simp [lockStep]
      · cases he3
  exact wellLocked_dualLock a b h [Event.readV a, Event.readV b] hmid

/-- Dual swap traces are well locked. -/
theorem dualSwapTrace_wellLocked {a b : LockId} (h : a ≠ b) :
    WellLocked (dualSwapTrace a b) := by
  have hmid : ∀ e ∈ [Event.readV a, Event.readV b, Event.writeV a,
      Event.writeV b], lockStep [a, b] e = some [a, b] := by
    intro e he
    simp only [List.mem_cons, List.not_mem_nil, or_false] at he
    rcases he with rfl | rfl | rfl | rfl <;> simp [lockStep]
  exact wellLocked_dualLock a b h
    [Event.readV a, Event.readV b, Event.writeV a, Event.writeV b] hmid

/-- The scoped-lock embedding succeeds on two distinct mutexes. -/
theorem scopedLock2_eq_some {d s : LockId} (h : d ≠ s) :
    scopedLock2 d s = some [d, s] := by
  simp [scopedLock2, lockStep, h]

/-- The scoped-lock embedding succeeds only on two distinct mutexes. -/
theorem scopedLock2_ne {d s : LockId} {hl : List LockId}
    (h : scopedLock2 d s = some hl) : d ≠ s := by
  intro he
  subst he
  simp [scopedLock2, lockStep] at h

/-- Passing the same non-recursive mutex twice never completes. -/
theorem scopedLock2_self (m : LockId) : scopedLock2 m m = none := by
  simp [scopedLock2, lockStep]

end SmartMutex

namespace SmartMutex

/-- Payload events are not releases. -/
theorem relCount_payload (m : LockId) (l : List PayloadOp) :
    relCount (l.map (payloadEvent m)) = 0 := by
  unfold relCount
  induction l with
  | nil => rfl
  | cons op t ih => cases op <;> simpa [payloadEvent, List.countP_cons] using ih

/-- Payload events are not acquisitions. -/
theorem acqCount_payload (m : LockId) (l : List PayloadOp) :
    acqCount (l.map (payloadEvent m)) = 0 := by
  unfold acqCount
  induction l with
  | nil => rfl
  | cons op t ih => cases op <;> simpa [payloadEvent, List.countP_cons] using ih

/-- An accessor session acquires once and releases once, whatever the
exit point. -/
theorem accessorTrace_counts {α : Type} (a : SM α) (ops : List PayloadOp)
    (k : Nat) :
    relCount (accessorTrace a ops k) = 1 ∧
    acqCount (accessorTrace a ops k) = 1 := by
  have h1 := relCount_payload a.lid (ops.take k)
  have h2 := acqCount_payload a.lid (ops.take k)
  unfold relCount at h1 ⊢
  unfold acqCount at h2 ⊢
  unfold accessorTrace
  constructor <;>
    simp only [List.countP_cons, List.countP_append, List.countP_nil, h1, h2] <;>
    rfl

/-- An accessor session is well locked, whatever the exit point. -/
theorem accessorTrace_wellLocked {α : Type} (a : SM α)
    (ops : List PayloadOp) (k : Nat) :
    WellLocked (accessorTrace a ops k) :=
  wellLocked_singleLock a.lid (ops.take k)

/-- Reachable duel states all lie in the computed closure. -/
theorem duelReach_mem {s : DuelState} (h : DuelReach s) :
    s ∈ duelReachList := by
  induction h with
  | init => decide
  | next hr hs ih =>
      have hcl : ∀ t ∈ duelReachList, ∀ t2 ∈ duelSucc t,
          t2 ∈ duelReachList := by decide
      exact hcl _ ih _ hs

/-- The terminal state of the duel, with both assignments returned and
both mutexes free, is reachable. -/
theorem duelDone_reach : DuelReach ⟨3, 3, none, none⟩ := by
  have h1 : DuelReach ⟨1, 0, some 0, some 0⟩ :=
    DuelReach.next DuelReach.init (by decide)
  have h2 : DuelReach ⟨2, 0, some 0, some 0⟩ :=
    DuelReach.next h1 (by decide)
  have h3 : DuelReach ⟨3, 0, none, none⟩ :=
    DuelReach.next h2 (by decide)
  have h4 : DuelReach ⟨3, 1, some 1, some 1⟩ :=
    DuelReach.next h3 (by decide)
  have h5 : DuelReach ⟨3, 2, some 1, some 1⟩ :=
    DuelReach.next h4 (by decide)
  exact DuelReach.next h5 (by decide)

end SmartMutex

namespace SmartMutex

/-- C1: every public operation that reads or writes the payload acquires
the owning lock before touching it and releases it afterwards, and an
accessor acquires the lock at construction and releases it exactly once at
destruction on every exit path.  Accessor sessions with an arbitrary body
and an arbitrary exit point are well locked, with exactly one acquisition
and one release; the traces of snapshot conversion, raw comparisons, raw
swaps, dual assignments, copy and move construction, dual comparisons and
the dual swap are all well locked. -/
theorem payload_access_lock_discipline :
    (∀ (α : Type) (a : SM α) (ops : List PayloadOp) (k : Nat),
      WellLocked (accessorTrace a ops k) ∧
      relCount (accessorTrace a ops k) = 1 ∧
      acqCount (accessorTrace a ops k) = 1) ∧
    (∀ (α : Type) (a : SM α), WellLocked (toValue a).2.2) ∧
    (∀ (α : Type) [inst : DecidableEq α] (a : SM α) (v : α),
      WellLocked (eqRaw a v).2.2.2 ∧ WellLocked (neqRaw a v).2.2.2) ∧
    (∀ (α : Type) (a : SM α) (v : α),
      WellLocked (swapWithRaw a v).2.2 ∧ WellLocked (swapRawWith v a).2.2) ∧
    (∀ (α : Type) (a b : SM α) (out : SM α × SM α × List Event),
      assignCopy a b = some out → WellLocked out.2.2) ∧
    (∀ (α : Type) (mv : α → α) (a b : SM α) (out : SM α × SM α × List Event),
      assignMove mv a b = some out → WellLocked out.2.2) ∧
    (∀ (α : Type) (l : LockId) (a : SM α) (out : SM α × SM α × List Event),
      copyCtor l a = some out → WellLocked out.2.2) ∧
    (∀ (α : Type) (mv : α → α) (l : LockId) (a : SM α)
      (out : SM α × SM α × List Event),
      moveCtor mv l a = some out → WellLocked out.2.2) ∧
    (∀ (α : Type) [inst : DecidableEq α] (a b : SM α)
      (out : Bool × SM α × SM α × List Event),
      eqSM a b = some out → WellLocked out.2.2.2) ∧
    (∀ (α : Type) [inst : DecidableEq α] (a b : SM α)
      (out : Bool × SM α × SM α × List Event),
      neqSM a b = some out → WellLocked out.2.2.2) ∧
    (∀ (α : Type) (a b : SM α) (out : SM α × SM α × List Event),
      swapSM a b = some out → WellLocked out.2.2) := by
  refine ⟨?_, ?_, ?_, ?_, ?_, ?_, ?_, ?_, ?_, ?_, ?_⟩
  · intro α a ops k
    exact ⟨accessorTrace_wellLocked a ops k, accessorTrace_counts a ops k⟩
  · intro α a
    exact wellLocked_singleLock a.lid [.readOp]
  · intro α inst a v
    exact ⟨wellLocked_singleLock a.lid [.readOp],
      wellLocked_singleLock a.lid [.readOp]⟩
  · intro α a v
    exact ⟨wellLocked_singleLock a.lid [.readOp, .writeOp],
      wellLocked_singleLock a.lid [.readOp, .writeOp]⟩
  · intro α a b out h
    unfold assignCopy at h
    cases hsl : scopedLock2 a.lid b.lid with
    | none => rw [hsl] at h; simp at h
    | some hl =>
        rw [hsl] at h
        simp only [Option.map_some'] at h
        injection h with h2
        subst h2
        exact dualCopyTrace_wellLocked (scopedLock2_ne hsl)
  · intro α mv a b out h
    unfold assignMove at h
    cases hsl : scopedLock2 a.lid b.lid with
    | none => rw [hsl] at h; simp at h
    | some hl =>
        rw [hsl] at h
        simp only [Option.map_some'] at h
        injection h with h2
        subst h2
        exact dualCopyTrace_wellLocked (scopedLock2_ne hsl)
  · intro α l a out h
    unfold copyCtor at h
    cases hsl : scopedLock2 l a.lid with
    | none => rw [hsl] at h; simp at h
    | some hl =>
        rw [hsl] at h
        simp only [Option.map_some'] at h
        injection h with h2
        subst h2
        exact dualCopyTrace_wellLocked (scopedLock2_ne hsl)
  · intro α mv l a out h
    unfold moveCtor at h
    cases hsl : scopedLock2 l a.lid with
    | none => rw [hsl] at h; simp at h
    | some hl =>
        rw [hsl] at h
        simp only [Option.map_some'] at h
        injection h with h2
        subst h2
        exact dualCopyTrace_wellLocked (scopedLock2_ne hsl)
  · intro α inst a b out h
    unfold eqSM at h
    cases hsl : scopedLock2 a.lid b.lid with
    | none => rw [hsl] at h; simp at h
    | some hl =>
        rw [hsl] at h
        simp only [Option.map_some'] at h
        injection h with h2
        subst h2
        exact dualCmpTrace_wellLocked (scopedLock2_ne hsl)
  · intro α inst a b out h
    unfold neqSM at h
    cases hsl : scopedLock2 a.lid b.lid with
    | none => rw [hsl] at h; simp at h
    | some hl =>
        rw [hsl] at h
        simp only [Option.map_some'] at h
        injection h with h2
        subst h2
        exact dualCmpTrace_wellLocked (scopedLock2_ne hsl)
  · intro α a b out h
    unfold swapSM at h
    cases hsl : scopedLock2 a.lid b.lid with
    | none => rw [hsl] at h; simp at h
    | some hl =>
        rw [hsl] at h
        simp only [Option.map_some'] at h
        injection h with h2
        subst h2
        exact dualSwapTrace_wellLocked (scopedLock2_ne hsl)

/-- C1 witness: the lock-discipline statement applied to a concrete
assignment between two distinct instances. -/
theorem payload_access_lock_discipline_witness :
    WellLocked (dualCopyTrace 0 1) :=
  payload_access_lock_discipline.2.2.2.2.1 Nat ⟨0, 5⟩ ⟨1, 7⟩
    (⟨0, 7⟩, ⟨1, 7⟩, dualCopyTrace 0 1) rfl

/-- C2: every operation touching two instances — copy construction, move
construction, copy assignment, move assignment, equality, inequality and
the dual swap — acquires both locks as one atomic all-or-nothing
acquisition (exactly one `acqBoth` event and no sequential single-mutex
acquisition in each trace), and in the two-thread duel running `A = B`
against `B = A` on the same pair of instances, every reachable non-final
state has an enabled step, every step strictly decreases the remaining
work, and the state where both assignments returned is reachable: both
threads always complete, with no deadlock. -/
theorem dual_lock_deadlock_free :
    (∀ s : DuelState, DuelReach s → ¬ DuelDone s → duelSucc s ≠ []) ∧
    (∀ s s2 : DuelState, DuelReach s → s2 ∈ duelSucc s →
      duelRank s2 < duelRank s) ∧
    (DuelReach ⟨3, 3, none, none⟩ ∧ DuelDone ⟨3, 3, none, none⟩) ∧
    (∀ (α : Type) (a b : SM α) (out : SM α × SM α × List Event),
      assignCopy a b = some out →
      acqBothCount out.2.2 = 1 ∧ acqCount out.2.2 = 0) ∧
    (∀ (α : Type) (mv : α → α) (a b : SM α) (out : SM α × SM α × List Event),
      assignMove mv a b = some out →
      acqBothCount out.2.2 = 1 ∧ acqCount out.2.2 = 0) ∧
    (∀ (α : Type) (l : LockId) (a : SM α) (out : SM α × SM α × List Event),
      copyCtor l a = some out →
      acqBothCount out.2.2 = 1 ∧ acqCount out.2.2 = 0) ∧
    (∀ (α : Type) (mv : α → α) (l : LockId) (a : SM α)
      (out : SM α × SM α × List Event),
      moveCtor mv l a = some out →
      acqBothCount out.2.2 = 1 ∧ acqCount out.2.2 = 0) ∧
    (∀ (α : Type) [inst : DecidableEq α] (a b : SM α)
      (out : Bool × SM α × SM α × List Event),
      eqSM a b = some out →
      acqBothCount out.2.2.2 = 1 ∧ acqCount out.2.2.2 = 0) ∧
    (∀ (α : Type) [inst : DecidableEq α] (a b : SM α)
      (out : Bool × SM α × SM α × List Event),
      neqSM a b = some out →
      acqBothCount out.2.2.2 = 1 ∧ acqCount out.2.2.2 = 0) ∧
    (∀ (α : Type) (a b : SM α) (out : SM α × SM α × List Event),
      swapSM a b = some out →
      acqBothCount out.2.2 = 1 ∧ acqCount out.2.2 = 0) := by
  refine ⟨?_, ?_, ⟨duelDone_reach, by decide⟩, ?_, ?_, ?_, ?_, ?_, ?_, ?_⟩
  · intro s hs hnd
    have hall : ∀ t ∈ duelReachList, ¬ DuelDone t → duelSucc t ≠ [] := by
      decide
    exact hall s (duelReach_mem hs) hnd
  · intro s s2 hs hstep
    have hall : ∀ t ∈ duelReachList, ∀ t2 ∈ duelSucc t,
        duelRank t2 < duelRank t := by decide
    exact hall s (duelReach_mem hs) s2 hstep
  · intro α a b out h
    unfold assignCopy at h
    cases hsl : scopedLock2 a.lid b.lid with
    | none => rw [hsl] at h; simp at h
    | some hl =>
        rw [hsl] at h
        simp only [Option.map_some'] at h
        injection h with h2
        subst h2
        exact ⟨rfl, rfl⟩
  · intro α mv a b out h
    unfold assignMove at h
    cases hsl : scopedLock2 a.lid b.lid with
    | none => rw [hsl] at h; simp at h
    | some hl =>
        rw [hsl] at h
        simp only [Option.map_some'] at h
        injection h with h2
        subst h2
        exact ⟨rfl, rfl⟩
  · intro α l a out h
    unfold copyCtor at h
    cases hsl : scopedLock2 l a.lid with
    | none => rw [hsl] at h; simp at h
    | some hl =>
        rw [hsl] at h
        simp only [Option.map_some'] at h
        injection h with h2
        subst h2
        exact ⟨rfl, rfl⟩
  · intro α mv l a out h
    unfold moveCtor at h
    cases hsl : scopedLock2 l a.lid with
    | none => rw [hsl] at h; simp at h
    | some hl =>
        rw [hsl] at h
        simp only [Option.map_some'] at h
        injection h with h2
        subst h2
        exact ⟨rfl, rfl⟩
  · intro α inst a b out h
    unfold eqSM at h
    cases hsl : scopedLock2 a.lid b.lid with
    | none => rw [hsl] at h; simp at h
    | some hl =>
        rw [hsl] at h
        simp only [Option.map_some'] at h
        injection h with h2
        subst h2
        exact ⟨rfl, rfl⟩
  · intro α inst a b out h
    unfold neqSM at h
    cases hsl : scopedLock2 a.lid b.lid with
    | none => rw [hsl] at h; simp at h
    | some hl =>
        rw [hsl] at h
        simp only [Option.map_some'] at h
        injection h with h2
        subst h2
        exact ⟨rfl, rfl⟩
  · intro α a b out h
    unfold swapSM at h
    cases hsl : scopedLock2 a.lid b.lid with
    | none => rw [hsl] at h; simp at h
    | some hl =>
        rw [hsl] at h
        simp only [Option.map_some'] at h
        injection h with h2
        subst h2
        exact ⟨rfl, rfl⟩

/-- C2 witness: the deadlock-freedom statement applied at the initial duel
state and at its first step. -/
theorem dual_lock_deadlock_free_witness :
    duelSucc duelInit ≠ [] ∧
    duelRank ⟨1, 0, some 0, some 0⟩ < duelRank duelInit :=
  ⟨dual_lock_deadlock_free.1 duelInit DuelReach.init (by decide),
   dual_lock_deadlock_free.2.1 duelInit ⟨1, 0, some 0, some 0⟩
     DuelReach.init (by decide)⟩

/-- C7 (refuted by the code): `operator=` performs no self-assignment
detection; `A = A` runs `std::scoped_lock lock(mutex, other.mutex)` with
both references naming the same non-recursive `std::mutex`, an acquisition
that never completes.  Evaluated at the concrete failing input, a wrapper
holding 0 with mutex identity 0 assigned to itself. -/
theorem self_assignment_never_completes :
    (∀ (α : Type) (a : SM α), assignCopy a a = none ∧
      assignMove id a a = none) ∧
    assignCopy (⟨0, (0 : Nat)⟩ : SM Nat) ⟨0, 0⟩ = none := by
  refine ⟨fun α a => ?_, rfl⟩
  constructor <;> simp [assignCopy, assignMove, scopedLock2_self]

end SmartMutex

namespace SmartMutex

/-- C3: copy construction and copy assignment leave the destination with
the payload of the source and the source untouched, and the two then
compare equal; move construction and move assignment leave the destination
with the pre-move payload of the source and the source a valid instance
(same lock identity, payload in the moved-from state of the value type). -/
theorem copy_move_fidelity :
    ∀ (α : Type) [inst : DecidableEq α] (mv : α → α) (newL : LockId)
      (A B : SM α),
      (newL ≠ A.lid →
        copyCtor newL A =
          some (⟨newL, A.value⟩, A, dualCopyTrace newL A.lid) ∧
        moveCtor mv newL A =
          some (⟨newL, A.value⟩, ⟨A.lid, mv A.value⟩,
            dualCopyTrace newL A.lid) ∧
        (eqSM (⟨newL, A.value⟩ : SM α) A).map (fun o => o.1) = some true) ∧
      (B.lid ≠ A.lid →
        assignCopy B A =
          some (⟨B.lid, A.value⟩, A, dualCopyTrace B.lid A.lid) ∧
        assignMove mv B A =
          some (⟨B.lid, A.value⟩, ⟨A.lid, mv A.value⟩,
            dualCopyTrace B.lid A.lid) ∧
        (eqSM (⟨B.lid, A.value⟩ : SM α) A).map (fun o => o.1) = some true) := by
  intro α inst mv newL A B
  constructor
  · intro h
    refine ⟨?_, ?_, ?_⟩ <;>
      simp [copyCtor, moveCtor, eqSM, scopedLock2_eq_some h]
  · intro h
    refine ⟨?_, ?_, ?_⟩ <;>
      simp [assignCopy, assignMove, eqSM, scopedLock2_eq_some h]

/-- C3 witness: copy construction from a concrete instance. -/
theorem copy_move_fidelity_witness :
    copyCtor 1 (⟨0, (7 : Nat)⟩ : SM Nat) =
      some (⟨1, 7⟩, ⟨0, 7⟩, dualCopyTrace 1 0) :=
  ((copy_move_fidelity Nat id 1 ⟨0, 7⟩ ⟨2, 5⟩).1 (by decide)).1

/-- C4: wrapper-to-wrapper equality returns true exactly when the payloads
are value-equal, wrapper-to-raw equality returns true exactly when the
payload is value-equal to the raw value, the inequality operators are the
negations of the equality operators, and after mutating only one of two
instances with equal payloads, both operand orders report unequal. -/
theorem equality_semantics :
    ∀ (α : Type) [inst : DecidableEq α] (a b : SM α) (v : α) (f : α → α),
      (∀ out : Bool × SM α × SM α × List Event,
        eqSM a b = some out → (out.1 = true ↔ a.value = b.value)) ∧
      (∀ out : Bool × SM α × SM α × List Event,
        neqSM a b = some out → (out.1 = true ↔ ¬ a.value = b.value)) ∧
      ((eqRaw a v).1 = true ↔ a.value = v) ∧
      ((neqRaw a v).1 = true ↔ ¬ a.value = v) ∧
      ((neqRaw a v).1 = !(eqRaw a v).1) ∧
      ((neqSM a b).map (fun o => o.1) = (eqSM a b).map (fun o => !o.1)) ∧
      (a.lid ≠ b.lid → a.value = b.value → f b.value ≠ b.value →
        (neqSM a (accessWrite b f)).map (fun o => o.1) = some true ∧
        (neqSM (accessWrite b f) a).map (fun o => o.1) = some true) := by
  intro α inst a b v f
  refine ⟨?_, ?_, ?_, ?_, ?_, ?_, ?_⟩
  · intro out h
    unfold eqSM at h
    cases hsl : scopedLock2 a.lid b.lid with
    | none => rw [hsl] at h; simp at h
    | some hl =>
        rw [hsl] at h
        simp only [Option.map_some'] at h
        injection h with h2
        subst h2
        simp
  · intro out h
    unfold neqSM at h
    cases hsl : scopedLock2 a.lid b.lid with
    | none => rw [hsl] at h; simp at h
    | some hl =>
        rw [hsl] at h
        simp only [Option.map_some'] at h
        injection h with h2
        subst h2
        simp
  · simp [eqRaw]
  · simp [neqRaw]
  · simp [eqRaw, neqRaw, decide_not]
  · unfold eqSM neqSM
    cases hsl : scopedLock2 a.lid b.lid with
    | none => rfl
    | some hl => simp [decide_not]
  · intro h ha hf
    have hv : ¬ a.value = f b.value := fun he => hf (by rw [← he, ha])
    have hv2 : ¬ f b.value = a.value := fun he => hv he.symm
    constructor
    · simp [neqSM, accessWrite, scopedLock2_eq_some h, hv]
    · have h2 : b.lid ≠ a.lid := fun he => h he.symm
      simp [neqSM, accessWrite, scopedLock2_eq_some h2, hv2]

/-- C4 witness: mutating one of two equal instances makes both operand
orders report unequal, at concrete inputs. -/
theorem equality_semantics_witness :
    (neqSM (⟨0, (3 : Nat)⟩ : SM Nat)
        (accessWrite ⟨1, 3⟩ Nat.succ)).map (fun o => o.1) = some true ∧
    (neqSM (accessWrite (⟨1, (3 : Nat)⟩ : SM Nat) Nat.succ)
        ⟨0, 3⟩).map (fun o => o.1) = some true :=
  (equality_semantics Nat ⟨0, 3⟩ ⟨1, 3⟩ 0 Nat.succ).2.2.2.2.2.2
    (by decide) rfl (by decide)

/-- C5: the wrapper-to-wrapper swap exchanges the two payloads; the
wrapper-to-raw swaps, in either argument order, exchange the guarded
payload with the external raw value.  All three embeddings are plain total
results, mirroring the `noexcept` declarations (no exception outcome). -/
theorem swap_correctness :
    ∀ (α : Type) (a b : SM α) (v : α),
      (a.lid ≠ b.lid →
        swapSM a b = some (⟨a.lid, b.value⟩, ⟨b.lid, a.value⟩,
          dualSwapTrace a.lid b.lid)) ∧
      swapWithRaw a v = (⟨a.lid, v⟩, a.value,
        [.acq a.lid, .readV a.lid, .writeV a.lid, .rel a.lid]) ∧
      swapRawWith v a = (a.value, ⟨a.lid, v⟩,
        [.acq a.lid, .readV a.lid, .writeV a.lid, .rel a.lid]) := by
  intro α a b v
  exact ⟨fun h => by simp [swapSM, scopedLock2_eq_some h], rfl, rfl⟩

/-- C5 witness: instances holding 12 and 34 hold 34 and 12 after the dual
swap. -/
theorem swap_correctness_witness :
    swapSM (⟨0, (12 : Nat)⟩ : SM Nat) ⟨1, 34⟩ =
      some (⟨0, 34⟩, ⟨1, 12⟩, dualSwapTrace 0 1) :=
  (swap_correctness Nat ⟨0, 12⟩ ⟨1, 34⟩ 0).1 (by decide)

/-- C6: converting a wrapper to the underlying value type returns a copy
of the payload taken under the lock, and the stored payload is neither
moved out nor otherwise modified: the instance is returned unchanged and
the trace contains no payload write. -/
theorem conversion_snapshot :
    ∀ (α : Type) (a : SM α),
      (toValue a).1 = a.value ∧ (toValue a).2.1 = a ∧
      WellLocked (toValue a).2.2 ∧ writeCount (toValue a).2.2 = 0 := by
  intro α a
  exact ⟨rfl, rfl, wellLocked_singleLock a.lid [.readOp], rfl⟩

/-- C8: the variadic constructor builds the payload in place from the
forwarded arguments and its lock-event trace is empty. -/
theorem forward_ctor_lockless :
    ∀ (α γ : Type) (l : LockId) (ctor : γ → α) (args : γ),
      mkForward l ctor args = (⟨l, ctor args⟩, []) ∧
      (mkForward l ctor args).2 = [] := by
  intro α γ l ctor args
  exact ⟨rfl, rfl⟩

/-- C9: the comparisons and the snapshot conversion are read-only: the
operand instances and the raw comparand come back unchanged and no trace
contains a payload write. -/
theorem comparisons_read_only :
    ∀ (α : Type) [inst : DecidableEq α] (a b : SM α) (v : α),
      (∀ out : Bool × SM α × SM α × List Event, eqSM a b = some out →
        out.2.1 = a ∧ out.2.2.1 = b ∧ writeCount out.2.2.2 = 0) ∧
      (∀ out : Bool × SM α × SM α × List Event, neqSM a b = some out →
        out.2.1 = a ∧ out.2.2.1 = b ∧ writeCount out.2.2.2 = 0) ∧
      ((eqRaw a v).2.1 = a ∧ (eqRaw a v).2.2.1 = v ∧
        writeCount (eqRaw a v).2.2.2 = 0) ∧
      ((neqRaw a v).2.1 = a ∧ (neqRaw a v).2.2.1 = v ∧
        writeCount (neqRaw a v).2.2.2 = 0) ∧
      ((toValue a).2.1 = a ∧ writeCount (toValue a).2.2 = 0) := by
  intro α inst a b v
  refine ⟨?_, ?_, ⟨rfl, rfl, rfl⟩, ⟨rfl, rfl, rfl⟩, rfl, rfl⟩
  · intro out h
    unfold eqSM at h
    cases hsl : scopedLock2 a.lid b.lid with
    | none => rw [hsl] at h; simp at h
    | some hl =>
        rw [hsl] at h
        simp only [Option.map_some'] at h
        injection h with h2
        subst h2
        exact ⟨rfl, rfl, rfl⟩
  · intro out h
    unfold neqSM at h
    cases hsl : scopedLock2 a.lid b.lid with
    | none => rw [hsl] at h; simp at h
    | some hl =>
        rw [hsl] at h
        simp only [Option.map_some'] at h
        injection h with h2
        subst h2
        exact ⟨rfl, rfl, rfl⟩

/-- C9 witness: a concrete wrapper-to-wrapper comparison leaves both
operands unchanged and performs no payload write. -/
theorem comparisons_read_only_witness :
    (true, (⟨0, (5 : Nat)⟩ : SM Nat), (⟨1, (5 : Nat)⟩ : SM Nat),
        dualCmpTrace 0 1).2.1 = (⟨0, (5 : Nat)⟩ : SM Nat) ∧
    (true, (⟨0, (5 : Nat)⟩ : SM Nat), (⟨1, (5 : Nat)⟩ : SM Nat),
        dualCmpTrace 0 1).2.2.1 = (⟨1, (5 : Nat)⟩ : SM Nat) ∧
    writeCount (true, (⟨0, (5 : Nat)⟩ : SM Nat),
        (⟨1, (5 : Nat)⟩ : SM Nat), dualCmpTrace 0 1).2.2.2 = 0 :=
  (comparisons_read_only Nat ⟨0, 5⟩ ⟨1, 5⟩ 9).1
    (true, ⟨0, 5⟩, ⟨1, 5⟩, dualCmpTrace 0 1) rfl

/-- C10: the accessor type is public and its constructor takes a
const-qualified wrapper, so a write accessor explicitly constructed from a
const instance is accepted (the embedding is total on `ConstSM`), and
mutating through its `const_cast` arrow pointer updates the payload of the
const-qualified wrapper. -/
theorem const_write_access_mutates :
    ∀ (α : Type) (c : ConstSM α) (f : α → α),
      (mutateConstThroughAccess c f).1 = ⟨⟨c.toSM.lid, f c.toSM.value⟩⟩ ∧
      WellLocked (mutateConstThroughAccess c f).2 ∧
      relCount (mutateConstThroughAccess c f).2 = 1 := by
  intro α c f
  exact ⟨rfl, wellLocked_singleLock c.toSM.lid [.writeOp], rfl⟩

end SmartMutex
